import Mathlib

/-!
Verification of the asynchronous document-processing pipeline of the
AI-Powered-Legal-Document-Summariser repository (Node/Express backend,
Mongoose record store).  The definitions below are a shallow embedding of
the backend source:

- src/backend/index.js        (upload route, processDocument, query routes,
                               translate route, callPythonService)
- src/backend/routes/documents.js (owner-scoped routes, DELETE /:id)
- src/unnamed/part_004        (documentSchema: status enum and defaults)

JavaScript values travelling through the summary/translation code are
modelled by the JSON-like type JsonVal; Mongoose documents by the Doc
structure; persistence by explicit lists of successively persisted
snapshots; save() failures by an explicit SaveBehavior schedule.
-/

/-- A JSON-like value: the shape of request bodies, summaries and the
structured values the translation endpoint walks.  Mirrors the JavaScript
values reachable in the backend (strings, numbers, booleans, null, arrays,
objects with ordered string keys). -/
inductive JsonVal where
  | str (s : String)
  | num (n : Int)
  | bool (b : Bool)
  | null
  | arr (xs : List JsonVal)
  | obj (fields : List (String × JsonVal))

mutual

/-- One iteration body of the field loop in translateObject
(src/backend/index.js lines 304-321): an array field is translated
element-wise, a non-null object field is recursed into, a string field is
translated, any other field is passed through unchanged.  (null reaches the
final else branch because the JS guard is typeof value === 'object' AND
value !== null.) -/
def translateField (tr : String → String) : JsonVal → JsonVal
  | .arr xs => .arr (translateItems tr xs)
  | .obj fs => .obj (translateFields tr fs)
  | .str s => .str (tr s)
  | .num n => .num n
  | .bool b => .bool b
  | .null => .null

/-- The Promise.all(value.map(...)) of the array branch: a string item is
translated, any other item is passed to translateObject
(src/backend/index.js lines 306-312). -/
def translateItems (tr : String → String) : List JsonVal → List JsonVal
  | [] => []
  | JsonVal.str s :: rest => JsonVal.str (tr s) :: translateItems tr rest
  | v :: rest => translateObject tr v :: translateItems tr rest

/-- The for-of loop over Object.entries(obj) in translateObject. -/
def translateFields (tr : String → String) : List (String × JsonVal) → List (String × JsonVal)
  | [] => []
  | (k, v) :: rest => (k, translateField tr v) :: translateFields tr rest

/-- translateObject (src/backend/index.js lines 302-323).  JavaScript
Object.entries enumerates an object's own fields; on an array it yields
index/value pairs, on a string it yields index/character pairs, and on any
other primitive it yields nothing, so translateObject applied to those
values returns an object built from those entries. -/
def translateObject (tr : String → String) : JsonVal → JsonVal
  | .obj fs => .obj (translateFields tr fs)
  | .arr xs => .obj (translateIndexed tr 0 xs)
  | .str s => .obj (translateChars tr 0 s.data)
  | .num _ => .obj []
  | .bool _ => .obj []
  | .null => .obj []

/-- Object.entries of an array: index-keyed entries, each processed by the
same field-loop body. -/
def translateIndexed (tr : String → String) (i : Nat) : List JsonVal → List (String × JsonVal)
  | [] => []
  | v :: rest => (toString i, translateField tr v) :: translateIndexed tr (i + 1) rest

/-- Object.entries of a string: index-keyed single-character strings, each
hitting the string branch of the field loop.  (Unreachable from the routes:
the endpoint handles plain strings before calling translateObject.) -/
def translateChars (tr : String → String) (i : Nat) : List Char → List (String × JsonVal)
  | [] => []
  | c :: cs => (toString i, JsonVal.str (tr (String.mk [c]))) :: translateChars tr (i + 1) cs

end

mutual

/-- Modelled from the spec: the Translation Adapter contract of spec section
4.5, used only as the comparison point for the refinement claim about
translateObject.  A string leaf is translated, a sequence is walked
element-wise in order, a mapping has each field's value walked, and any
other-typed value is passed through unchanged. -/
def specTranslate (tr : String → String) : JsonVal → JsonVal
  | .str s => .str (tr s)
  | .arr xs => .arr (specTranslateList tr xs)
  | .obj fs => .obj (specTranslateFields tr fs)
  | .num n => .num n
  | .bool b => .bool b
  | .null => .null

/-- Modelled from the spec: element-wise walk of a sequence (spec section
4.5: strings translated in their original order, structured elements
recursed into). -/
def specTranslateList (tr : String → String) : List JsonVal → List JsonVal
  | [] => []
  | v :: rest => specTranslate tr v :: specTranslateList tr rest

/-- Modelled from the spec: field-wise walk of a mapping, keys unchanged. -/
def specTranslateFields (tr : String → String) : List (String × JsonVal) → List (String × JsonVal)
  | [] => []
  | (k, v) :: rest => (k, specTranslate tr v) :: specTranslateFields tr rest

end

mutual

/-- Values in the domain of a structured summary (spec section 3): arrays
contain only strings or mappings, and mappings may hold any value whose
arrays again satisfy this.  On this domain the code's translateObject and
the spec's recursion rules coincide. -/
def wfVal : JsonVal → Bool
  | .arr xs => wfElems xs
  | .obj fs => wfFields fs
  | _ => true

/-- Array elements of a structured summary: strings or well-formed mappings. -/
def wfElems : List JsonVal → Bool
  | [] => true
  | JsonVal.str _ :: rest => wfElems rest
  | JsonVal.obj fs :: rest => wfFields fs && wfElems rest
  | _ :: _ => false

/-- Fields of a structured-summary mapping: any well-formed values. -/
def wfFields : List (String × JsonVal) → Bool
  | [] => true
  | (_, v) :: rest => wfVal v && wfFields rest

end

mutual

/-- Structural agreement between an input value and its translation: same
constructor, same object keys in the same order, same array lengths
pointwise, non-string leaves equal, string leaves free. -/
def sameShape : JsonVal → JsonVal → Bool
  | .str _, .str _ => true
  | .num a, .num b => a == b
  | .bool a, .bool b => a == b
  | .null, .null => true
  | .arr xs, .arr ys => sameShapeList xs ys
  | .obj fs, .obj gs => sameShapeFields fs gs
  | _, _ => false

/-- Pointwise structural agreement of two sequences (equal lengths). -/
def sameShapeList : List JsonVal → List JsonVal → Bool
  | [], [] => true
  | x :: xs, y :: ys => sameShape x y && sameShapeList xs ys
  | _, _ => false

/-- Pointwise structural agreement of two field lists (equal keys in order). -/
def sameShapeFields : List (String × JsonVal) → List (String × JsonVal) → Bool
  | [], [] => true
  | (k, v) :: fs, (k', v') :: gs => k == k' && sameShape v v' && sameShapeFields fs gs
  | _, _ => false

end



/-- The status enum of documentSchema (src/unnamed/part_004 lines 28-32):
uploaded, processing, completed, failed; default uploaded. -/
inductive Status where
  | uploaded
  | processing
  | completed
  | failed
deriving DecidableEq

/-- The multer file object consumed by the upload handlers: originalname,
mimetype, size, and the stored filename/path chosen by the disk-storage
engine. -/
structure FileInfo where
  originalname : String
  filename : String
  path : String
  size : Nat
  mimetype : String

/-- A persisted Document record.  filename, originalName, path, size,
mimetype, uploadedAt and the status enum follow documentSchema
(src/unnamed/part_004).  Modelled from the spec: the authenticated
variant's models/Document.js is not under src (only its callers in
src/backend/index.js and src/backend/routes/documents.js are), so the
user, summary, error and processedAt fields follow spec section 3:
ownerId set at creation, summary and error absent until the terminal
transition, processedAt absent until set.  Timestamps are abstracted to
naturals, object ids to naturals. -/
structure Doc where
  id : Nat
  filename : String
  originalName : String
  path : String
  size : Nat
  mimetype : String
  uploaderIp : String
  user : Option Nat
  status : Status
  summary : Option JsonVal
  error : Option String
  uploadedAt : Nat
  processedAt : Option Nat

/-- Outcome schedule for the up to three document.save() calls one
processDocument run can issue (the processing write, the completed write,
and the failure write in the catch block): none means the save succeeds,
some m means it rejects with message m. -/
structure SaveBehavior where
  s1 : Option String
  s2 : Option String
  s3 : Option String

/-- All persists succeed. -/
def allSavesOk : SaveBehavior := ⟨none, none, none⟩

/-- callPythonService (src/backend/index.js lines 73-96): forwards
response.data.summary on success and replaces any transport error with the
fixed message thrown at line 94. -/
def callPythonService (axiosResult : Except String JsonVal) : Except String JsonVal :=
  match axiosResult with
  | .ok v => .ok v
  | .error _ => .error "Failed to process document with NLP service"

/-- The normalization step of processDocument (src/backend/index.js lines
112-121): a bare string result is wrapped as an object with key_points,
tables and highlights; any other result is stored as-is. -/
def normalizeSummary : JsonVal → JsonVal
  | .str s => .obj [("key_points", .arr [.str s]), ("tables", .arr []), ("highlights", .arr [])]
  | v => v

/-- processDocument (src/backend/index.js lines 98-136).  Arguments: the
record found by Document.findById (none when absent), the outcome of the
axios call inside callPythonService, the save() schedule, and the clock
value used for new Date() at the completed transition.  Returns the
successive successfully persisted snapshots of the record, in order: the
in-memory record is mutated to processing, then either to
completed+summary+processedAt or, in the catch block, to failed+error
(without clearing summary or processedAt and without setting processedAt),
and each save() that succeeds appends the current in-memory record to the
persisted history.  A failing failure-write persists nothing further (the
record is left as last persisted). -/
def processDocument (stored : Option Doc) (axiosResult : Except String JsonVal)
    (sb : SaveBehavior) (now : Nat) : List Doc :=
  match stored with
  | none => []
  | some doc =>
    let d1 : Doc := { doc with status := .processing }
    match sb.s1 with
    | some m =>
      match sb.s3 with
      | none => [{ d1 with status := .failed, error := some m }]
      | some _ => []
    | none =>
      match callPythonService axiosResult with
      | .error msg =>
        match sb.s3 with
        | none => [d1, { d1 with status := .failed, error := some msg }]
        | some _ => [d1]
      | .ok summary =>
        let d2 : Doc := { d1 with summary := some (normalizeSummary summary),
                                  status := .completed, processedAt := some now }
        match sb.s2 with
        | none => [d1, d2]
        | some m =>
          match sb.s3 with
          | none => [d1, { d2 with status := .failed, error := some m }]
          | some _ => [d1]

/-- The record built and persisted by the upload handler
(src/backend/index.js lines 151-162) with the documentSchema defaults:
status uploaded, summary, error and processedAt unset. -/
def mkUploadDoc (id : Nat) (f : FileInfo) (user : Option Nat) (ip : String)
    (now : Nat) : Doc :=
  { id := id, filename := f.filename, originalName := f.originalname,
    path := f.path, size := f.size, mimetype := f.mimetype, uploaderIp := ip,
    user := user, status := .uploaded, summary := none, error := none,
    uploadedAt := now, processedAt := none }

/-- The last persisted state of the record after a processDocument run
(the record as a later status query reads it back). -/
def runFinal (doc : Doc) (axiosResult : Except String JsonVal)
    (sb : SaveBehavior) (now : Nat) : Doc :=
  (processDocument (some doc) axiosResult sb now).getLastD doc

/-- The exactly-one invariant of spec section 3: while uploaded or
processing neither summary nor error is present; completed records carry a
summary and no error; failed records carry an error and no summary. -/
def statusInv (d : Doc) : Bool :=
  match d.status with
  | .uploaded => d.summary.isNone && d.error.isNone
  | .processing => d.summary.isNone && d.error.isNone
  | .completed => d.summary.isSome && d.error.isNone
  | .failed => d.error.isSome && d.summary.isNone

/-- The allowed edges of the state machine (spec section 3): uploaded to
processing, processing to completed, processing to failed. -/
def allowedEdge : Status → Status → Bool
  | .uploaded, .processing => true
  | .processing, .completed => true
  | .processing, .failed => true
  | _, _ => false

/-- Every adjacent pair of a status history lies on an allowed edge. -/
def chainOk : List Status → Bool
  | a :: b :: rest => allowedEdge a b && chainOk (b :: rest)
  | _ => true

/-- The allowed media types of the upload fileFilter
(src/backend/index.js lines 58-65). -/
def allowedTypes : List String :=
  ["application/pdf",
   "application/vnd.openxmlformats-officedocument.wordprocessingml.document",
   "text/plain"]

/-- fileFilter (src/backend/index.js lines 58-65): accept exactly the
allowed media types. -/
def fileFilter (f : FileInfo) : Bool := allowedTypes.contains f.mimetype

/-- The multer fileSize limit (src/backend/index.js line 70): 20 MB. -/
def maxFileSize : Nat := 20 * 1024 * 1024

/-- Outcome of an upload request as the client sees it before any
processing result is attached. -/
inductive UploadOutcome where
  | validationError (msg : String)
  | accepted (id : Nat)

/-- The upload request path (multer middleware plus the handler body of
src/backend/index.js lines 142-162, before processing is triggered).
multer runs fileFilter on the incoming file and enforces the fileSize
limit while streaming, both before the handler body; a missing file is
rejected by the handler with status 400.  Only a fully validated request
persists the new record (appended to the store). -/
def uploadRequest (store : List Doc) (freshId : Nat) (file : Option FileInfo)
    (user : Option Nat) (ip : String) (now : Nat) : List Doc × UploadOutcome :=
  match file with
  | none => (store, .validationError "No file uploaded")
  | some f =>
    if fileFilter f = false then
      (store, .validationError "Invalid file type. Only PDF, DOCX, and TXT files are allowed.")
    else if maxFileSize < f.size then
      (store, .validationError "File too large")
    else
      (store ++ [mkUploadDoc freshId f user ip now], .accepted freshId)

/-- Document.findOne with an owner-scoped filter, as used by every
authenticated read (src/backend/index.js lines 196-199 and 257-260): the
record must match both the id and the requesting user. -/
def findOwned (store : List Doc) (id : Nat) (requester : Nat) : Option Doc :=
  store.find? (fun d => d.id == id && d.user == some requester)

/-- Response of GET /api/document/:id/status. -/
inductive StatusResponse where
  | notFound
  | ok (status : Status) (error : Option String)

/-- The document body returned by GET /api/document/:id
(src/backend/index.js lines 207-218). -/
structure DocView where
  id : Nat
  originalName : String
  status : Status
  summary : Option JsonVal
  uploadedAt : Nat
  processedAt : Option Nat
  error : Option String

/-- Response of GET /api/document/:id. -/
inductive DocResponse where
  | notFound
  | ok (document : DocView)

/-- GET /api/document/:id/status (src/backend/index.js lines 255-281):
owner-scoped findOne; a missing or foreign record yields the uniform 404
body, an owned record yields its status and error. -/
def getStatus (store : List Doc) (id : Nat) (requester : Nat) : StatusResponse :=
  match findOwned store id requester with
  | none => .notFound
  | some d => .ok d.status d.error

/-- GET /api/document/:id (src/backend/index.js lines 194-226):
owner-scoped findOne; a missing or foreign record yields the uniform 404
body, an owned record yields its projected fields. -/
def getDocument (store : List Doc) (id : Nat) (requester : Nat) : DocResponse :=
  match findOwned store id requester with
  | none => .notFound
  | some d =>
    .ok { id := d.id, originalName := d.originalName, status := d.status,
          summary := d.summary, uploadedAt := d.uploadedAt,
          processedAt := d.processedAt, error := d.error }

/-- One list entry of GET /api/summaries (src/backend/index.js lines
238-243): the Mongo _id, the original name as title, the stored summary,
and processedAt falling back to uploadedAt as createdAt. -/
structure SummaryEntry where
  _id : Nat
  title : String
  summary : Option JsonVal
  createdAt : Nat

/-- The projection applied to each listed document
(src/backend/index.js lines 238-243). -/
def mkSummaryEntry (d : Doc) : SummaryEntry :=
  { _id := d.id, title := d.originalName, summary := d.summary,
    createdAt := d.processedAt.getD d.uploadedAt }

/-- Insert a record into a list kept in descending uploadedAt order. -/
def insertByUploadedDesc (d : Doc) : List Doc → List Doc
  | [] => [d]
  | x :: xs =>
    if x.uploadedAt ≤ d.uploadedAt then d :: x :: xs
    else x :: insertByUploadedDesc d xs

/-- The Mongo sort('-uploadedAt'): the matched records in descending
uploadedAt order (insertion sort as an executable refinement of the store's
sort). -/
def sortByUploadedDesc : List Doc → List Doc
  | [] => []
  | x :: xs => insertByUploadedDesc x (sortByUploadedDesc xs)

/-- The document query of GET /api/summaries (src/backend/index.js lines
230-236): the requester's completed records, sorted by descending
uploadedAt, limited to 20. -/
def summariesDocs (store : List Doc) (requester : Nat) : List Doc :=
  (sortByUploadedDesc (store.filter
    (fun d => d.user == some requester && d.status == Status.completed))).take 20

/-- GET /api/summaries (src/backend/index.js lines 228-253). -/
def listSummaries (store : List Doc) (requester : Nat) : List SummaryEntry :=
  (summariesDocs store requester).map mkSummaryEntry

/-- The mutable world touched by DELETE /:id: the record store and the set
of stored file paths in uploads/. -/
structure SysState where
  docs : List Doc
  files : List String

/-- DELETE /:id (src/backend/routes/documents.js lines 155-171):
Document.findOneAndDelete scoped to the owner.  The route removes the
matched record and replies success; it issues no filesystem call, so the
stored files are untouched. -/
def deleteDocument (st : SysState) (id : Nat) (requester : Nat) : SysState × Bool :=
  match st.docs.find? (fun d => d.id == id && d.user == some requester) with
  | none => (st, false)
  | some _ =>
    ({ st with docs := st.docs.eraseP (fun d => d.id == id && d.user == some requester) },
     true)

/-- JavaScript truthiness of the JSON values a request body can hold:
the empty string, zero, false and null are falsy; every other value,
including the empty object and the empty array, is truthy. -/
def jsFalsy : JsonVal → Bool
  | .str s => s == ""
  | .num n => n == 0
  | .bool b => !b
  | .null => true
  | .arr _ => false
  | .obj _ => false

/-- Response of POST /api/translate. -/
inductive TranslateOutcome where
  | badRequest (msg : String)
  | ok (translatedText : JsonVal)

/-- POST /api/translate (src/backend/index.js lines 283-339).  tr is the
external translation collaborator, taking the resolved locale code and a
string.  A missing or falsy text field is rejected with status 400 before
any translation call; the locale is hi for hindi and en otherwise; a plain
string is translated by a single call, any other value is passed to
translateObject. -/
def translateEndpoint (tr : String → String → String) (text : Option JsonVal)
    (targetLanguage : Option String) : TranslateOutcome :=
  match text with
  | none => .badRequest "No text provided for translation"
  | some t =>
    if jsFalsy t then .badRequest "No text provided for translation"
    else
      let target := if targetLanguage == some "hindi" then "hi" else "en"
      match t with
      | .str s => .ok (.str (tr target s))
      | v => .ok (translateObject (tr target) v)

/-- No terminal status is followed by a further persisted state. -/
def noSuccessorAfterTerminal : List Status → Bool
  | a :: b :: rest =>
    !(a == Status.completed || a == Status.failed) && noSuccessorAfterTerminal (b :: rest)
  | _ => true

/-- A sample multer file object for concrete runs. -/
def sampleFile : FileInfo :=
  { originalname := "contract.txt", filename := "171-42.txt",
    path := "uploads/171-42.txt", size := 3, mimetype := "text/plain" }

/-- A sample freshly created record for concrete runs. -/
def sampleDoc : Doc := mkUploadDoc 1 sampleFile (some 7) "::1" 0

/-- The ordered key list of a JSON object value. -/
def jsonKeys : JsonVal → List String
  | .obj fs => fs.map Prod.fst
  | _ => []

/-- The concrete system state used by the deletion counterexample: one
record owned by user 7 whose bytes sit at uploads/171-42.txt. -/
def sampleState : SysState := ⟨[sampleDoc], ["uploads/171-42.txt"]⟩

mutual

theorem translateField_eq_spec (tr : String → String) :
    (v : JsonVal) → wfVal v = true → translateField tr v = specTranslate tr v
  | .str _, _ => rfl
  | .num _, _ => rfl
  | .bool _, _ => rfl
  | .null, _ => rfl
  | .arr xs, h => by
      rw [translateField, specTranslate,
        translateItems_eq_spec tr xs (by simpa [wfVal] using h)]
  | .obj fs, h => by
      rw [translateField, specTranslate,
        translateFields_eq_spec tr fs (by simpa [wfVal] using h)]

theorem translateItems_eq_spec (tr : String → String) :
    (xs : List JsonVal) → wfElems xs = true → translateItems tr xs = specTranslateList tr xs
  | [], _ => rfl
  | JsonVal.str s :: rest, h => by
      rw [translateItems, specTranslateList, specTranslate,
        translateItems_eq_spec tr rest (by simpa [wfElems] using h)]
  | JsonVal.obj fs :: rest, h => by
      rw [translateItems, specTranslateList, specTranslate, translateObject,
        translateFields_eq_spec tr fs (by simp [wfElems] at h; exact h.1),
        translateItems_eq_spec tr rest (by simp [wfElems] at h; exact h.2)]
      intro s hs
      exact JsonVal.noConfusion hs

theorem translateFields_eq_spec (tr : String → String) :
    (fs : List (String × JsonVal)) → wfFields fs = true →
      translateFields tr fs = specTranslateFields tr fs
  | [], _ => rfl
  | (k, v) :: rest, h => by
      rw [translateFields, specTranslateFields,
        translateField_eq_spec tr v (by simp [wfFields] at h; exact h.1),
        translateFields_eq_spec tr rest (by simp [wfFields] at h; exact h.2)]

end

mutual

theorem sameShape_specTranslate (tr : String → String) :
    (v : JsonVal) → sameShape v (specTranslate tr v) = true
  | .str _ => rfl
  | .num n => by simp [specTranslate, sameShape]
  | .bool b => by simp [specTranslate, sameShape]
  | .null => rfl
  | .arr xs => by
      rw [specTranslate]; simpa [sameShape] using sameShapeList_specTranslate tr xs
  | .obj fs => by
      rw [specTranslate]; simpa [sameShape] using sameShapeFields_specTranslate tr fs

theorem sameShapeList_specTranslate (tr : String → String) :
    (xs : List JsonVal) → sameShapeList xs (specTranslateList tr xs) = true
  | [] => rfl
  | v :: rest => by
      rw [specTranslateList]
      simp [sameShapeList, sameShape_specTranslate tr v,
        sameShapeList_specTranslate tr rest]

theorem sameShapeFields_specTranslate (tr : String → String) :
    (fs : List (String × JsonVal)) → sameShapeFields fs (specTranslateFields tr fs) = true
  | [] => rfl
  | (k, v) :: rest => by
      rw [specTranslateFields]
      simp [sameShapeFields, sameShape_specTranslate tr v,
        sameShapeFields_specTranslate tr rest]

end

/-- C1 (amended): starting from the record the Ingress Handler creates, the
exactly-one summary-or-error invariant holds initially and in every
persisted state of a processDocument run, provided the completed-state
write succeeds whenever it is reached; when that write fails, the catch
block marks the record failed without clearing the already-attached
summary, so the persisted failed record carries both summary and error. -/
theorem orchestrator_preserves_statusInv (id : Nat) (f : FileInfo)
    (user : Option Nat) (ip : String) (now0 now : Nat)
    (r : Except String JsonVal) (sb : SaveBehavior) (hs2 : sb.s2 = none) :
    statusInv (mkUploadDoc id f user ip now0) = true ∧
    (processDocument (some (mkUploadDoc id f user ip now0)) r sb now).all statusInv = true := by
  obtain ⟨s1, s2, s3⟩ := sb
  simp only at hs2
  subst hs2
  refine ⟨rfl, ?_⟩
  cases s1 <;> cases s3 <;> cases r <;>
    simp [processDocument, callPythonService, mkUploadDoc, statusInv]

/-- C1 witness: a concrete run with all saves succeeding. -/
theorem orchestrator_preserves_statusInv_witness :
    statusInv (mkUploadDoc 1 sampleFile (some 7) "::1" 0) = true ∧
    (processDocument (some (mkUploadDoc 1 sampleFile (some 7) "::1" 0))
      (.ok (.str "Hello")) allSavesOk 5).all statusInv = true :=
  orchestrator_preserves_statusInv 1 sampleFile (some 7) "::1" 0 5
    (.ok (.str "Hello")) allSavesOk rfl

/-- C1 counterexample: the dispatcher returns a summary, the completed
write fails, the failure write succeeds; the record read back afterwards is
failed yet carries both a summary and an error, so exactly-one fails. -/
theorem statusInv_broken_on_completed_write_failure :
    (runFinal sampleDoc (.ok (.str "S")) ⟨none, some "write failed", none⟩ 5).status = Status.failed ∧
    (runFinal sampleDoc (.ok (.str "S")) ⟨none, some "write failed", none⟩ 5).summary.isSome = true ∧
    (runFinal sampleDoc (.ok (.str "S")) ⟨none, some "write failed", none⟩ 5).error.isSome = true ∧
    statusInv (runFinal sampleDoc (.ok (.str "S")) ⟨none, some "write failed", none⟩ 5) = false := by
  decide

/-- C2 (amended): starting from the record the Ingress Handler creates, and
provided the processing-state write succeeds, the sequence of persisted
statuses of a processDocument run follows only the edges uploaded to
processing, processing to completed and processing to failed, and no
terminal state is followed by a further persisted state within the run
(reads are pure in this model and only deleteDocument removes records);
when the processing write fails, the persisted record instead jumps
straight from uploaded to failed. -/
theorem status_follows_allowed_edges (id : Nat) (f : FileInfo)
    (user : Option Nat) (ip : String) (now0 now : Nat)
    (r : Except String JsonVal) (sb : SaveBehavior) (hs1 : sb.s1 = none) :
    chainOk (Status.uploaded ::
      (processDocument (some (mkUploadDoc id f user ip now0)) r sb now).map Doc.status) = true ∧
    noSuccessorAfterTerminal (Status.uploaded ::
      (processDocument (some (mkUploadDoc id f user ip now0)) r sb now).map Doc.status) = true := by
  obtain ⟨s1, s2, s3⟩ := sb
  simp only at hs1
  subst hs1
  cases s2 <;> cases s3 <;> cases r <;>
    simp [processDocument, callPythonService, mkUploadDoc, chainOk, allowedEdge,
      noSuccessorAfterTerminal]

/-- C2 witness: a concrete run with a dispatcher failure and all saves
succeeding. -/
theorem status_follows_allowed_edges_witness :
    chainOk (Status.uploaded ::
      (processDocument (some (mkUploadDoc 1 sampleFile (some 7) "::1" 0))
        (.error "net down") allSavesOk 5).map Doc.status) = true ∧
    noSuccessorAfterTerminal (Status.uploaded ::
      (processDocument (some (mkUploadDoc 1 sampleFile (some 7) "::1" 0))
        (.error "net down") allSavesOk 5).map Doc.status) = true :=
  status_follows_allowed_edges 1 sampleFile (some 7) "::1" 0 5
    (.error "net down") allSavesOk rfl

/-- C2 counterexample: when the processing-state write fails and the
failure write succeeds, the persisted status history is uploaded then
failed, an edge outside the claimed set. -/
theorem status_edge_skipped_on_processing_write_failure :
    chainOk (Status.uploaded ::
      (processDocument (some sampleDoc) (.ok (.str "S"))
        ⟨some "db down", none, none⟩ 5).map Doc.status) = false := by
  decide

/-- C3 (amended): when the summarization dispatch fails (and the
surrounding writes succeed), processDocument persists the record with
status failed, the fixed non-empty dispatcher failure message as error,
and no summary; contrary to the claim, processedAt is NOT set on the
failure path (the catch block never touches it). -/
theorem dispatch_failure_persists_failed_record (id : Nat) (f : FileInfo)
    (user : Option Nat) (ip : String) (now0 now : Nat) (msg : String)
    (sb : SaveBehavior) (hs1 : sb.s1 = none) (hs3 : sb.s3 = none) :
    (processDocument (some (mkUploadDoc id f user ip now0)) (.error msg) sb now).map Doc.status
      = [Status.processing, Status.failed] ∧
    (runFinal (mkUploadDoc id f user ip now0) (.error msg) sb now).error
      = some "Failed to process document with NLP service" ∧
    "Failed to process document with NLP service" ≠ "" ∧
    (runFinal (mkUploadDoc id f user ip now0) (.error msg) sb now).summary = none ∧
    (runFinal (mkUploadDoc id f user ip now0) (.error msg) sb now).processedAt = none := by
  obtain ⟨s1, s2, s3⟩ := sb
  simp only at hs1 hs3
  subst hs1; subst hs3
  refine ⟨?_, ?_, by decide, ?_, ?_⟩ <;>
    simp [processDocument, runFinal, callPythonService, mkUploadDoc]

/-- C3 witness: a concrete dispatcher failure with all saves succeeding. -/
theorem dispatch_failure_persists_failed_record_witness :
    (processDocument (some (mkUploadDoc 1 sampleFile (some 7) "::1" 0))
      (.error "network timeout") allSavesOk 5).map Doc.status
      = [Status.processing, Status.failed] ∧
    (runFinal (mkUploadDoc 1 sampleFile (some 7) "::1" 0) (.error "network timeout") allSavesOk 5).error
      = some "Failed to process document with NLP service" ∧
    "Failed to process document with NLP service" ≠ "" ∧
    (runFinal (mkUploadDoc 1 sampleFile (some 7) "::1" 0) (.error "network timeout") allSavesOk 5).summary = none ∧
    (runFinal (mkUploadDoc 1 sampleFile (some 7) "::1" 0) (.error "network timeout") allSavesOk 5).processedAt = none :=
  dispatch_failure_persists_failed_record 1 sampleFile (some 7) "::1" 0 5
    "network timeout" allSavesOk rfl rfl

/-- C3 counterexample: on a concrete dispatcher failure the persisted
failed record has processedAt unset, not the current time, contradicting
the claim that processedAt is set at the failed transition. -/
theorem dispatch_failure_leaves_processedAt_unset :
    (runFinal sampleDoc (.error "network timeout") allSavesOk 5).status = Status.failed ∧
    (runFinal sampleDoc (.error "network timeout") allSavesOk 5).processedAt = none ∧
    (runFinal sampleDoc (.error "network timeout") allSavesOk 5).processedAt ≠ some 5 := by
  decide


/-- C4 (amended): a bare string s returned by the summarization
collaborator is stored on the completed record as the object with fields
key_points set to the one-element sequence holding s, tables empty and
highlights empty (the key-points field is persisted under the snake_case
key key_points, which the spec calls keyPoints), while any non-string
collaborator result is stored as-is. -/
theorem bare_string_summary_normalized (id : Nat) (f : FileInfo)
    (user : Option Nat) (ip : String) (now0 now : Nat) (s : String) (v : JsonVal)
    (hv : ∀ t, v ≠ JsonVal.str t) :
    (runFinal (mkUploadDoc id f user ip now0) (.ok (.str s)) allSavesOk now).summary
      = some (.obj [("key_points", .arr [.str s]), ("tables", .arr []), ("highlights", .arr [])]) ∧
    (runFinal (mkUploadDoc id f user ip now0) (.ok v) allSavesOk now).summary = some v := by
  constructor
  · simp [runFinal, processDocument, callPythonService, normalizeSummary, mkUploadDoc,
      allSavesOk]
  · cases v with
    | str t => exact absurd rfl (hv t)
    | _ =>
      simp [runFinal, processDocument, callPythonService, normalizeSummary, mkUploadDoc,
        allSavesOk]

/-- C4 witness: the bare string Hello and a concrete structured result. -/
theorem bare_string_summary_normalized_witness :
    (runFinal (mkUploadDoc 1 sampleFile (some 7) "::1" 0) (.ok (.str "Hello")) allSavesOk 5).summary
      = some (.obj [("key_points", .arr [.str "Hello"]), ("tables", .arr []), ("highlights", .arr [])]) ∧
    (runFinal (mkUploadDoc 1 sampleFile (some 7) "::1" 0)
      (.ok (.obj [("key_points", .arr [.str "a"])])) allSavesOk 5).summary
      = some (.obj [("key_points", .arr [.str "a"])]) :=
  bare_string_summary_normalized 1 sampleFile (some 7) "::1" 0 5 "Hello"
    (.obj [("key_points", .arr [.str "a"])]) (fun _ h => JsonVal.noConfusion h)

/-- C4 counterexample: the result Hello is stored with key list
key_points, tables, highlights; the claimed key keyPoints differs from the
stored key key_points, so the summary is not the claimed object with a
keyPoints field. -/
theorem normalized_summary_key_is_snake_case :
    ((runFinal sampleDoc (.ok (.str "Hello")) allSavesOk 5).summary.map jsonKeys)
      = some ["key_points", "tables", "highlights"] ∧
    ("key_points" : String) ≠ "keyPoints" ∧
    (runFinal sampleDoc (.ok (.str "Hello")) allSavesOk 5).summary
      ≠ some (.obj [("keyPoints", .arr [.str "Hello"]), ("tables", .arr []), ("highlights", .arr [])]) := by
  refine ⟨by decide, by decide, ?_⟩
  simp [runFinal, processDocument, callPythonService, normalizeSummary, sampleDoc,
    mkUploadDoc, allSavesOk]

/-- C5: an upload whose file is absent, whose media type is outside the
allowed set, or whose size exceeds 20 MB is answered with a validation
error and persists nothing: the record store is unchanged. -/
theorem invalid_upload_rejected (store : List Doc) (freshId : Nat)
    (file : Option FileInfo) (user : Option Nat) (ip : String) (now : Nat)
    (h : file = none ∨ ∃ f, file = some f ∧ (fileFilter f = false ∨ maxFileSize < f.size)) :
    (uploadRequest store freshId file user ip now).1 = store ∧
    ∃ msg, (uploadRequest store freshId file user ip now).2 = UploadOutcome.validationError msg := by
  rcases h with h | ⟨f, rfl, hf⟩
  · subst h
    exact ⟨rfl, "No file uploaded", rfl⟩
  · rcases hf with hf | hf
    · exact ⟨by simp [uploadRequest, hf],
        "Invalid file type. Only PDF, DOCX, and TXT files are allowed.",
        by simp [uploadRequest, hf]⟩
    · cases hft : fileFilter f with
      | false =>
        exact ⟨by simp [uploadRequest, hft],
          "Invalid file type. Only PDF, DOCX, and TXT files are allowed.",
          by simp [uploadRequest, hft]⟩
      | true =>
        exact ⟨by simp [uploadRequest, hft, hf], "File too large",
          by simp [uploadRequest, hft, hf]⟩

/-- C5 witness: a .exe upload is rejected and the empty store stays empty. -/
theorem invalid_upload_rejected_witness :
    (uploadRequest [] 1 (some ⟨"run.exe", "9-1.exe", "uploads/9-1.exe", 10, "application/x-msdownload"⟩)
      (some 7) "::1" 0).1 = [] ∧
    ∃ msg, (uploadRequest [] 1 (some ⟨"run.exe", "9-1.exe", "uploads/9-1.exe", 10, "application/x-msdownload"⟩)
      (some 7) "::1" 0).2 = UploadOutcome.validationError msg :=
  invalid_upload_rejected [] 1
    (some ⟨"run.exe", "9-1.exe", "uploads/9-1.exe", 10, "application/x-msdownload"⟩)
    (some 7) "::1" 0
    (Or.inr ⟨_, rfl, Or.inl (by decide)⟩)

/-- C6: when every record with the queried id belongs to user A and the
requester B is a different user, both getStatus and getDocument answer
exactly the uniform not-found outcome, identical to querying a store with
no record at all under that id. -/
theorem cross_owner_read_is_uniform_not_found (store : List Doc) (id A B : Nat)
    (hAB : B ≠ A) (hown : ∀ d ∈ store, d.id = id → d.user = some A) :
    getStatus store id B = StatusResponse.notFound ∧
    getStatus store id B = getStatus [] id B ∧
    getDocument store id B = DocResponse.notFound ∧
    getDocument store id B = getDocument [] id B := by
  have hfind : findOwned store id B = none := by
    apply List.find?_eq_none.mpr
    intro d hd
    simp only [Bool.and_eq_true, beq_iff_eq, not_and]
    intro hid huser
    exact hAB (Option.some.inj ((hown d hd hid).symm.trans huser)).symm
  simp only [findOwned] at hfind
  refine ⟨?_, ?_, ?_, ?_⟩ <;> simp [getStatus, getDocument, findOwned, hfind]

/-- C6 witness: a store holding one record of user 7 under id 1, queried
by user 8. -/
theorem cross_owner_read_is_uniform_not_found_witness :
    getStatus [sampleDoc] 1 8 = StatusResponse.notFound ∧
    getStatus [sampleDoc] 1 8 = getStatus [] 1 8 ∧
    getDocument [sampleDoc] 1 8 = DocResponse.notFound ∧
    getDocument [sampleDoc] 1 8 = getDocument [] 1 8 :=
  cross_owner_read_is_uniform_not_found [sampleDoc] 1 7 8 (by decide) (by decide)

/-- C10: a translate request with absent text, or with the empty string as
text, is answered synchronously with the bad-request error body, and the
answer does not depend on the translation collaborator at all (no
translation call is observable), so only a non-empty text can succeed. -/
theorem empty_translate_text_rejected (tr1 tr2 : String → String → String)
    (tl : Option String) :
    translateEndpoint tr1 none tl = TranslateOutcome.badRequest "No text provided for translation" ∧
    translateEndpoint tr1 (some (.str "")) tl = TranslateOutcome.badRequest "No text provided for translation" ∧
    translateEndpoint tr1 none tl = translateEndpoint tr2 none tl ∧
    translateEndpoint tr1 (some (.str "")) tl = translateEndpoint tr2 (some (.str "")) tl := by
  refine ⟨rfl, ?_, rfl, ?_⟩ <;> simp [translateEndpoint, jsFalsy]

/-- C7: on every structured summary value (arrays holding only strings or
mappings, per the summary data model), translateObject agrees with the
spec's recursion rules — every string leaf independently translated in its
original position and order, nested mappings and sequences recursed into,
other-typed mapping fields passed through unchanged — and the result has
exactly the same keys and the same array lengths as the input, an empty
input sequence staying empty. -/
theorem translateObject_preserves_structure (tr : String → String)
    (fs : List (String × JsonVal)) (h : wfFields fs = true) :
    translateObject tr (.obj fs) = specTranslate tr (.obj fs) ∧
    sameShape (.obj fs) (translateObject tr (.obj fs)) = true := by
  have he : translateObject tr (.obj fs) = specTranslate tr (.obj fs) := by
    rw [translateObject, specTranslate, translateFields_eq_spec tr fs h]
  exact ⟨he, by rw [he]; exact sameShape_specTranslate tr (.obj fs)⟩

/-- C7 witness: the structured summary with keyPoints a and b, empty
tables and highlight c, under a concrete leaf translation. -/
theorem translateObject_preserves_structure_witness :
    translateObject (fun s => s ++ "X")
      (.obj [("key_points", .arr [.str "a", .str "b"]), ("tables", .arr []),
             ("highlights", .arr [.str "c"])])
      = specTranslate (fun s => s ++ "X")
      (.obj [("key_points", .arr [.str "a", .str "b"]), ("tables", .arr []),
             ("highlights", .arr [.str "c"])]) ∧
    sameShape
      (.obj [("key_points", .arr [.str "a", .str "b"]), ("tables", .arr []),
             ("highlights", .arr [.str "c"])])
      (translateObject (fun s => s ++ "X")
        (.obj [("key_points", .arr [.str "a", .str "b"]), ("tables", .arr []),
               ("highlights", .arr [.str "c"])])) = true :=
  translateObject_preserves_structure (fun s => s ++ "X") _
    (by simp [wfFields, wfVal, wfElems])

theorem mem_insertByUploadedDesc {x d : Doc} :
    ∀ {l : List Doc}, x ∈ insertByUploadedDesc d l ↔ x = d ∨ x ∈ l
  | [] => by simp [insertByUploadedDesc]
  | y :: ys => by
    by_cases hc : y.uploadedAt ≤ d.uploadedAt
    · simp [insertByUploadedDesc, hc]
    · simp only [insertByUploadedDesc, if_neg hc, List.mem_cons,
        mem_insertByUploadedDesc (l := ys)]
      tauto

theorem mem_sortByUploadedDesc {x : Doc} :
    ∀ {l : List Doc}, x ∈ sortByUploadedDesc l ↔ x ∈ l
  | [] => Iff.rfl
  | y :: ys => by
    simp only [sortByUploadedDesc, mem_insertByUploadedDesc,
      mem_sortByUploadedDesc (l := ys), List.mem_cons]

theorem pairwise_insertByUploadedDesc {d : Doc} :
    ∀ {l : List Doc}, l.Pairwise (fun a b => b.uploadedAt ≤ a.uploadedAt) →
      (insertByUploadedDesc d l).Pairwise (fun a b => b.uploadedAt ≤ a.uploadedAt)
  | [], _ => by simp [insertByUploadedDesc]
  | y :: ys, h => by
    rcases List.pairwise_cons.mp h with ⟨hy, hys⟩
    by_cases hc : y.uploadedAt ≤ d.uploadedAt
    · rw [insertByUploadedDesc, if_pos hc]
      refine List.pairwise_cons.mpr ⟨?_, h⟩
      intro z hz
      rcases List.mem_cons.mp hz with rfl | hz
      · exact hc
      · exact le_trans (hy z hz) hc
    · rw [insertByUploadedDesc, if_neg hc]
      refine List.pairwise_cons.mpr ⟨?_, pairwise_insertByUploadedDesc hys⟩
      intro z hz
      rcases mem_insertByUploadedDesc.mp hz with rfl | hz
      · exact le_of_not_le hc
      · exact hy z hz

theorem pairwise_sortByUploadedDesc :
    ∀ l : List Doc, (sortByUploadedDesc l).Pairwise (fun a b => b.uploadedAt ≤ a.uploadedAt)
  | [] => List.Pairwise.nil
  | _y :: ys => pairwise_insertByUploadedDesc (pairwise_sortByUploadedDesc ys)

/-- C8: listSummaries answers with at most 20 entries; every entry is the
projection (id as _id, originalName as title, stored summary, processedAt
falling back to uploadedAt as createdAt) of one of the requester's
completed records; and the listed records are ordered newest first by
upload time. -/
theorem listSummaries_spec (store : List Doc) (requester : Nat) :
    (listSummaries store requester).length ≤ 20 ∧
    (∀ e ∈ listSummaries store requester, ∃ d ∈ store,
        d.user = some requester ∧ d.status = Status.completed ∧ e = mkSummaryEntry d) ∧
    (summariesDocs store requester).Pairwise (fun a b => b.uploadedAt ≤ a.uploadedAt) := by
  refine ⟨?_, ?_, ?_⟩
  · simp only [listSummaries, summariesDocs, List.length_map, List.length_take]
    exact min_le_left _ _
  · intro e he
    rcases List.mem_map.mp he with ⟨d, hd, rfl⟩
    have hd2 : d ∈ sortByUploadedDesc (store.filter
        (fun d => d.user == some requester && d.status == Status.completed)) :=
      List.mem_of_mem_take hd
    have hd3 := mem_sortByUploadedDesc.mp hd2
    rcases List.mem_filter.mp hd3 with ⟨hmem, hp⟩
    simp only [Bool.and_eq_true, beq_iff_eq] at hp
    exact ⟨d, hmem, hp.1, hp.2, rfl⟩
  · exact List.Pairwise.sublist (List.take_sublist _ _) (pairwise_sortByUploadedDesc _)


/-- C9 (amended): a successful owner-initiated deletion removes exactly
the matched Document record from the store — every surviving record was
already stored — but, contrary to the claim, it does not release the
stored file: the route issues no filesystem call, so the set of stored
files is unchanged. -/
theorem delete_removes_record_keeps_file (st : SysState) (id requester : Nat)
    (h : (deleteDocument st id requester).2 = true) :
    (deleteDocument st id requester).1.files = st.files ∧
    (deleteDocument st id requester).1.docs.length + 1 = st.docs.length ∧
    ∀ d ∈ (deleteDocument st id requester).1.docs, d ∈ st.docs := by
  rcases hf : st.docs.find? (fun d => d.id == id && d.user == some requester) with _ | ⟨d⟩
  · rw [deleteDocument, hf] at h
    exact absurd h (by simp)
  · have hmem := List.mem_of_find?_eq_some hf
    have hp := List.find?_some hf
    rcases @List.exists_of_eraseP Doc
        (fun d => d.id == id && d.user == some requester) st.docs d hmem hp
      with ⟨a, l1, l2, _, _, hl, he⟩
    rw [deleteDocument, hf]
    refine ⟨rfl, ?_, ?_⟩
    · show (List.eraseP _ st.docs).length + 1 = st.docs.length
      rw [he, hl]
      simp only [List.length_append, List.length_cons]
      omega
    · intro x hx
      exact List.mem_of_mem_eraseP hx

/-- C9 witness: deleting the sample record as its owner. -/
theorem delete_removes_record_keeps_file_witness :
    (deleteDocument sampleState 1 7).1.files = sampleState.files ∧
    (deleteDocument sampleState 1 7).1.docs.length + 1 = sampleState.docs.length ∧
    ∀ d ∈ (deleteDocument sampleState 1 7).1.docs, d ∈ sampleState.docs :=
  delete_removes_record_keeps_file sampleState 1 7 (by decide)

/-- C9 counterexample: the owner deletes the sample record; the route
reports success and removes the record, yet the file at the record's path
is still in storage, so the stored file is not released. -/
theorem delete_leaves_stored_file :
    (deleteDocument sampleState 1 7).2 = true ∧
    (deleteDocument sampleState 1 7).1.docs.length = 0 ∧
    (deleteDocument sampleState 1 7).1.files = ["uploads/171-42.txt"] ∧
    sampleDoc.path ∈ (deleteDocument sampleState 1 7).1.files := by
  decide
